import Mathlib

/-!
# Verification of the git-ai authorship wrapper

A shallow embedding, in Lean 4, of the parts of the git-ai repository that
the specification's claims are about:

* `src/commands/working_stats.rs` — per-file line statistics
  (`calculate_file_stats`), ignore patterns (`should_ignore_file`,
  `glob_match`);
* `src/commands/hooks/commit_hooks.rs` — the commit pre/post hooks and
  author resolution (`get_commit_default_author`,
  `extract_author_from_args`);
* `src/commands/git_handlers.rs` — hook orchestration with panic
  isolation and exit mirroring (`exit_with_status`);
* `src/commands/git_ai_handlers.rs` — the `stats` argument parser
  (`handle_stats`);
* the attribution tracker / virtual attribution engine (not present in
  the sources; modelled from the specification) exercised by
  `tests/prompt_across_commit.rs`.

Strings are embedded as `String`/`List Char`; all the repository inputs
involved are ASCII, so Rust's byte positions coincide with character
positions.  External effects (environment variables, the git subprocess,
panics) are passed in as explicit values.
-/

namespace GitAi

/- ## String and list helpers (executable, kernel-reducible) -/

/-- Rust `str::contains(pat)` on character lists: `pat` occurs as a
contiguous sublist of `hay`. -/
def containsList (hay pat : List Char) : Bool :=
  pat.isPrefixOf hay ||
    (match hay with
     | [] => false
     | _ :: t => containsList t pat)

/-- Rust `str::contains` for `String`s. -/
def strContains (hay pat : String) : Bool :=
  containsList hay.toList pat.toList

/-- Rust `str::trim` (whitespace stripped from both ends), on lists. -/
def trimList (l : List Char) : List Char :=
  ((l.dropWhile Char.isWhitespace).reverse.dropWhile Char.isWhitespace).reverse

/-- Rust `str::trim` for `String`s (executable replacement for
`String.trim`, which does not reduce in the kernel). -/
def strTrim (s : String) : String :=
  ⟨trimList s.toList⟩

/-- Rust `str::split(sep)` on character lists: `splitOnChar '*' "a*b" =
["a", "b"]`, `splitOnChar '*' "" = [""]`. -/
def splitOnChar (sep : Char) : List Char → List (List Char)
  | [] => [[]]
  | c :: cs =>
    if c = sep then [] :: splitOnChar sep cs
    else
      match splitOnChar sep cs with
      | [] => [[c]]
      | p :: ps => (c :: p) :: ps

/- ## Data model: character attributions (spec §3) -/

/-- A half-open character interval `[start, stop)` with its author and
optional prompt hash (`Attribution` in the source; the `end` field is
renamed `stop`, `end` being a Lean keyword). -/
structure Attribution where
  start : Nat
  stop : Nat
  author_id : String
  prompt_hash : Option String
deriving DecidableEq, Repr

/- ## working_stats.rs: line scanning and per-file statistics -/

/-- Remove one trailing `'\r'` (the way Rust's `str::lines` treats a
`"\r\n"` terminator). -/
def stripTrailingCR (l : List Char) : List Char :=
  match l.reverse with
  | '\r' :: rest => rest.reverse
  | _ => l

/-- Worker for `rustLines`: accumulates the current line (reversed). -/
def rustLinesGo (cur : List Char) : List Char → List (List Char)
  | [] => [cur.reverse]
  | c :: rest =>
    if c = '\n' then
      stripTrailingCR cur.reverse ::
        (match rest with
         | [] => []
         | _ :: _ => rustLinesGo [] rest)
    else rustLinesGo (c :: cur) rest

/-- Rust `str::lines()` (used by `calculate_file_stats`): split at `'\n'`,
dropping a `'\r'` that precedes the terminator; no trailing empty line
when the content ends with a terminator. -/
def rustLines : List Char → List (List Char)
  | [] => []
  | s => rustLinesGo [] s

/-- `working_stats.rs` lines 122-133: after a line ends at `pos`, skip the
newline character(s) — a `'\r'`, optionally followed by `'\n'`, or a bare
`'\n'`. -/
def skipNewline (content : List Char) (pos : Nat) : Nat :=
  if h : pos < content.length then
    let c := content.get ⟨pos, h⟩
    if c = '\r' then
      if h2 : pos + 1 < content.length then
        if content.get ⟨pos + 1, h2⟩ = '\n' then pos + 2 else pos + 1
      else pos + 1
    else if c = '\n' then pos + 1 else pos
  else pos

/-- Worker for `lineBoundaries`: one `(start, end)` pair per line, scanning
the actual content for the terminators (lines 114-134 of the source). -/
def lineBoundariesGo (content : List Char) (pos : Nat) : List (List Char) → List (Nat × Nat)
  | [] => []
  | l :: ls =>
    (pos, pos + l.length) :: lineBoundariesGo content (skipNewline content (pos + l.length)) ls

/-- The accurate line boundaries `calculate_file_stats` builds before
attributing lines. -/
def lineBoundaries (content : List Char) : List (Nat × Nat) :=
  lineBoundariesGo content 0 (rustLines content)

/-- `working_stats.rs` line 159: an attribution (clamped to the content
length) overlaps a line `[ls, le)` iff `¬(end_char ≤ ls ∨ start_char ≥ le)`. -/
def attrOverlaps (contentLen : Nat) (a : Attribution) (b : Nat × Nat) : Bool :=
  !(decide (min a.stop contentLen ≤ b.1) || decide (a.start ≥ b.2))

/-- `working_stats.rs` lines 148-172: the set of author ids whose interval
overlaps each line (`line_authors` in the source; the iteration order of
the source's nested loops does not affect the resulting sets). -/
def lineAuthors (content : List Char) (attrs : List Attribution) : List (Finset String) :=
  (lineBoundaries content).map fun b =>
    (attrs.filter (fun a => attrOverlaps content.length a b)).foldl
      (fun s a => insert a.author_id s) ∅

/-- The three stats buckets of `working_stats.rs`. -/
inductive LineCategory
  | pureHuman
  | mixed
  | pureAI
deriving DecidableEq, Repr

/-- `working_stats.rs` lines 180-216: categorize one line from its author
set.  `none` = the line has no authors and is skipped entirely. -/
def classifyLine (authors : Finset String) : Option LineCategory :=
  if authors = ∅ then none
  else if authors.card = 1 then
    -- the single author is "human" iff "human" is a member
    if "human" ∈ authors then some .pureHuman else some .pureAI
  else if "human" ∈ authors then some .mixed else some .pureAI

/-- `FileStats` of `working_stats.rs`. -/
structure FileStats where
  pure_human_lines : Nat
  mixed_lines : Nat
  pure_ai_lines : Nat
  total_lines : Nat
deriving DecidableEq, Repr

/-- One pass of the categorization loop: bump the matching counter and the
total, or skip the line when it has no authors. -/
def statsStep (st : FileStats) (authors : Finset String) : FileStats :=
  match classifyLine authors with
  | none => st
  | some .pureHuman =>
    { st with pure_human_lines := st.pure_human_lines + 1, total_lines := st.total_lines + 1 }
  | some .mixed =>
    { st with mixed_lines := st.mixed_lines + 1, total_lines := st.total_lines + 1 }
  | some .pureAI =>
    { st with pure_ai_lines := st.pure_ai_lines + 1, total_lines := st.total_lines + 1 }

/-- `calculate_file_stats` of `working_stats.rs` (debug prints dropped). -/
def calculate_file_stats (content : List Char) (attrs : List Attribution) : FileStats :=
  (lineAuthors content attrs).foldl statsStep ⟨0, 0, 0, 0⟩

/- ## working_stats.rs: ignore patterns -/

/-- `glob_match` of `working_stats.rs` lines 240-269, translated branch by
branch (including the branch conditions exactly as written). -/
def glob_match (text pattern : String) : Bool :=
  if (pattern.toList.contains '*') = false then
    decide (text = pattern)
  else
    let parts := splitOnChar '*' pattern.toList
    let t := text.toList
    match parts with
    | [p0, p1] =>
      if p0 = [] then p1.isSuffixOf t          -- source comment: Pattern: *.txt
      else if p1 = [] then p0.isPrefixOf t     -- source comment: Pattern: prefix*
      else containsList t p1                   -- source comment: Pattern: *middle*
    | [p0, p1, p2] =>
      if p1 = [] then p0.isPrefixOf t && p2.isSuffixOf t  -- source comment: Pattern: prefix*suffix
      else false
    | _ => false

/-- `should_ignore_file` of `working_stats.rs` lines 230-237. -/
def should_ignore_file (file_path : String) (ignore_patterns : List String) : Bool :=
  ignore_patterns.any fun pattern =>
    strContains file_path pattern || glob_match file_path pattern

/- ## git_handlers.rs / commit_hooks.rs: the commit hook orchestration -/

/-- Modelled from the spec: `is_dry_run` (from the out-of-scope CLI
parser `git/cli_parser.rs`) detects a dry-run sub-command, e.g.
`commit --dry-run`. -/
def is_dry_run (command_args : List String) : Bool :=
  command_args.contains "--dry-run"

/-- Modelled from the spec: `ParsedGitInvocation::has_command_flag` (the
CLI parser is out of scope) — the flag occurs among the sub-command's
arguments. -/
def has_command_flag (command_args : List String) (flag : String) : Bool :=
  command_args.contains flag

/-- Termination of the child git process, as observed by `Child::wait`:
normal exit with a code, or death by signal (unix). -/
inductive GitExitStatus
  | exited (code : Nat)
  | signaled (sig : Nat)
deriving DecidableEq, Repr

/-- Rust `ExitStatus::code()`: `Some` exactly for a normal exit. -/
def GitExitStatus.codeFn : GitExitStatus → Option Nat
  | .exited c => some c
  | .signaled _ => none

/-- Rust unix `ExitStatusExt::signal()`: `Some` exactly for a signal death. -/
def GitExitStatus.signalFn : GitExitStatus → Option Nat
  | .exited _ => none
  | .signaled s => some s

/-- Rust `ExitStatus::success()`: exited with code 0. -/
def GitExitStatus.success : GitExitStatus → Bool
  | .exited c => c = 0
  | .signaled _ => false

/-- How the wrapper process itself terminates: a `process::exit` with a
code, or re-raising a signal after restoring its default handler. -/
inductive Termination
  | exitCode (code : Nat)
  | signalDefaultRaised (sig : Nat)
deriving DecidableEq, Repr

/-- `exit_with_status` of `git_handlers.rs` lines 601-614: if the child
was signaled, restore the default handler and re-raise the same signal;
otherwise `process::exit(status.code().unwrap_or(1))`. -/
def exit_with_status (status : GitExitStatus) : Termination :=
  match status.signalFn with
  | some sig => .signalDefaultRaised sig
  | none => .exitCode (status.codeFn.getD 1)

/-- Outcome of `pre_commit::pre_commit` (checkpoint creation), passed in
as a value since it performs repository I/O. -/
inductive PreCommitResult
  | ok
  | err (msg : String)
deriving DecidableEq, Repr

/-- The error text `commit_pre_command_hook` looks for to recognize a
bare repository. -/
def bareRepoMsg : String := "Cannot run checkpoint on bare repositories"

/-- Observable behavior of `commit_pre_command_hook`
(`commit_hooks.rs` lines 8-35): which side effects ran, whether the
process was terminated by `std::process::exit`, and the returned flag. -/
structure PreHookTrace where
  /-- `repository.require_pre_command_head()` was called. -/
  storedHeadContext : Bool
  /-- `pre_commit::pre_commit` (checkpoint creation) was invoked. -/
  ranCheckpoint : Bool
  /-- `some code` iff the hook called `std::process::exit(code)`. -/
  exited : Option Nat
  /-- The boolean the hook returns when it does not exit. -/
  proceed : Bool
deriving DecidableEq, Repr

/-- `commit_pre_command_hook` of `commit_hooks.rs` lines 8-35: dry runs
return `false` untouched; otherwise HEAD context is stored and a Human
checkpoint attempted; a bare-repository error is skipped (returning
`false`), any other checkpoint error calls `std::process::exit(1)`. -/
def commit_pre_command_hook (command_args : List String)
    (preCommit : PreCommitResult) : PreHookTrace :=
  if is_dry_run command_args then
    ⟨false, false, none, false⟩
  else
    match preCommit with
    | .ok => ⟨true, true, none, true⟩
    | .err msg =>
      if strContains msg bareRepoMsg then
        ⟨true, true, none, false⟩   -- eprintln + return false
      else
        ⟨true, true, some 1, false⟩ -- eprintln + process::exit(1)

/-- What `commit_post_command_hook` does: nothing, or a rewrite-log event
(ordinary commit or amend) that also converts the working log into an
authorship log (the `true` last argument of `handle_rewrite_log_event`). -/
inductive PostAction
  | noop
  | commitEvent (original : Option String) (newSha : String) (suppressOutput : Bool)
  | amendEvent (original : String) (newSha : String) (suppressOutput : Bool)
deriving DecidableEq, Repr

/-- `commit_post_command_hook` of `commit_hooks.rs` lines 51-126: skip on
dry run, on a failed git exit, on a recorded pre-hook failure, or when
HEAD still has no commit; otherwise emit the `commit_amend` or `commit`
rewrite-log event (converting the working log into an authorship log). -/
def commit_post_command_hook (command_args : List String)
    (exit_status : GitExitStatus) (pre_commit_hook_result : Option Bool)
    (pre_command_base_commit : Option String) (head_sha : Option String) : PostAction :=
  if is_dry_run command_args then .noop
  else if !exit_status.success then .noop
  else if pre_commit_hook_result = some false then .noop
  else
    match head_sha with
    | none => .noop
    | some new_sha =>
      let suppress := has_command_flag command_args "--porcelain" ||
        has_command_flag command_args "--quiet" ||
        has_command_flag command_args "-q" ||
        has_command_flag command_args "--no-status"
      match pre_command_base_commit with
      | some original =>
        if has_command_flag command_args "--amend" then
          .amendEvent original new_sha suppress
        else
          .commitEvent (some original) new_sha suppress
      | none => .commitEvent none new_sha suppress

/- ## commit_hooks.rs: author resolution -/

/-- The environment `get_commit_default_author` consults: the
`GIT_AUTHOR_NAME` / `GIT_AUTHOR_EMAIL` / `EMAIL` environment variables
and the repository's `user.name` / `user.email` configuration (`none`
covers both an unset variable and a config read error). -/
structure AuthorEnv where
  git_author_name : Option String
  git_author_email : Option String
  user_name : Option String
  user_email : Option String
  email : Option String
deriving DecidableEq, Repr

/-- The `if !v.trim().is_empty() { Some(v.trim()) }` idiom the source
applies to each candidate value. -/
def nonEmptyTrim : Option String → Option String
  | some s => if strTrim s = "" then none else some (strTrim s)
  | none => none

/-- Rust `str::strip_prefix`. -/
def stripPrefixStr (s pre : String) : Option String :=
  if pre.toList.isPrefixOf s.toList then some ⟨s.toList.drop pre.toList.length⟩
  else none

/-- `extract_author_from_args` of `commit_hooks.rs` lines 210-228: the
first `--author=<v>` or `--author <v>` occurrence wins; a trailing
`--author` with no value is skipped. -/
def extract_author_from_args : List String → Option String
  | [] => none
  | a :: rest =>
    match stripPrefixStr a "--author=" with
    | some v => some v
    | none =>
      if a = "--author" then
        match rest with
        | v :: _ => some v
        | [] => none
      else extract_author_from_args rest

/-- `Option` fallback (`a` if set, else `b`), mirroring the source's
"check X, else fall back to Y" sequences. -/
def orElseOpt (a b : Option String) : Option String :=
  match a with
  | some x => some x
  | none => b

/-- The name part extracted from a raw `EMAIL` value (`commit_hooks.rs`
lines 182-189): the (untrimmed) prefix before the first `'@'`, if
non-empty. -/
def emailNamePartRaw (em : String) : Option String :=
  match em.toList.findIdx? (fun c => c = '@') with
  | some i => if em.toList.take i = [] then none else some ⟨em.toList.take i⟩
  | none => none

/-- `commit_hooks.rs` lines 142-196: the sequential fills of
`author_name` and `author_email` — `GIT_AUTHOR_*` first, then `user.*`
config, then (only for a still-missing field) the `EMAIL` variable. -/
def resolved_name_email (env : AuthorEnv) : Option String × Option String :=
  let author_name := orElseOpt (nonEmptyTrim env.git_author_name) (nonEmptyTrim env.user_name)
  let author_email := orElseOpt (nonEmptyTrim env.git_author_email) (nonEmptyTrim env.user_email)
  if author_name.isNone || author_email.isNone then
    match env.email with
    | some em =>
      if strTrim em = "" then (author_name, author_email)
      else
        ((if author_name.isNone then emailNamePartRaw em else author_name),
         (if author_email.isNone then some (strTrim em) else author_email))
    | none => (author_name, author_email)
  else (author_name, author_email)

/-- `commit_hooks.rs` lines 198-207: format the final author string; the
`Bool` records the `"unknown"` warning having been printed. -/
def formatAuthor : Option String → Option String → String × Bool
  | some n, some e => (n ++ " <" ++ e ++ ">", false)
  | some n, none => (n, false)
  | none, some e => (e, false)
  | none, none => ("unknown", true)

/-- `get_commit_default_author` of `commit_hooks.rs` lines 128-208.
`resolveAuthor` stands for `repo.resolve_author_spec` (repository code
not under `src/`): `some r` for `Ok(Some(r))`, `none` for `Ok(None)` or
`Err`. -/
def get_commit_default_author (resolveAuthor : String → Option String)
    (env : AuthorEnv) (args : List String) : String × Bool :=
  let fromArgs :=
    match extract_author_from_args args with
    | some spec =>
      match resolveAuthor spec with
      | some resolved =>
        if strTrim resolved = "" then none else some (strTrim resolved)
      | none => none
    | none => none
  match fromArgs with
  | some a => (a, false)
  | none =>
    let pair := resolved_name_email env
    formatAuthor pair.1 pair.2

/-- The claim's precedence chain for the name field, written as the spec
words it: `GIT_AUTHOR_NAME`, else `user.name`, else the name part of
`EMAIL`. -/
def specAuthorName (env : AuthorEnv) : Option String :=
  orElseOpt (nonEmptyTrim env.git_author_name)
    (orElseOpt (nonEmptyTrim env.user_name)
      (match env.email with
       | some em => if strTrim em = "" then none else emailNamePartRaw em
       | none => none))

/-- The claim's precedence chain for the email field: `GIT_AUTHOR_EMAIL`,
else `user.email`, else `EMAIL`. -/
def specAuthorEmail (env : AuthorEnv) : Option String :=
  orElseOpt (nonEmptyTrim env.git_author_email)
    (orElseOpt (nonEmptyTrim env.user_email) (nonEmptyTrim env.email))

/-- The author-resolution precedence exactly as the claim states it: a
resolvable non-empty `--author` argument wins outright; otherwise the
name and email fields are resolved independently through
`GIT_AUTHOR_* > user.* > EMAIL`, and when nothing is set the result is
the literal `"unknown"` with a warning. -/
def author_precedence_spec (resolveAuthor : String → Option String)
    (env : AuthorEnv) (args : List String) : String × Bool :=
  match nonEmptyTrim ((extract_author_from_args args).bind resolveAuthor) with
  | some a => (a, false)
  | none => formatAuthor (specAuthorName env) (specAuthorEmail env)

/- ## git_ai_handlers.rs: the stats argument parser -/

/-- Result of `handle_stats`'s argument loop (`git_ai_handlers.rs` lines
543-620): the parsed flags, or a diagnostic followed by
`std::process::exit(1)`. -/
inductive StatsParse
  | ok (json : Bool) (commit : Option String) (range : Option (String × String))
      (ignore : List String)
  | exit1 (msg : String)
deriving DecidableEq, Repr

/-- Rust `str::split("..")` (left-to-right, non-overlapping). -/
def splitOnDotDot : List Char → List (List Char) :=
  go []
where
  go (cur : List Char) : List Char → List (List Char)
    | '.' :: '.' :: rest => cur.reverse :: go [] rest
    | c :: rest => go (c :: cur) rest
    | [] => [cur.reverse]

/-- The stopping test of the `--ignore` collection loop
(`git_ai_handlers.rs` lines 560-573): another flag, a commit range, or —
when no commit has been seen and no pattern collected yet — an argument
of at least 7 bytes. -/
def ignoreStop (commitSeen found : Bool) (a : String) : Bool :=
  "--".toList.isPrefixOf a.toList || strContains a ".." ||
    (!commitSeen && !found && decide (7 ≤ a.utf8ByteSize))

/-- The patterns the `--ignore` loop collects before stopping. -/
def collectIgnorePatterns (commitSeen found : Bool) : List String → List String
  | [] => []
  | a :: rest =>
    if ignoreStop commitSeen found a then []
    else a :: collectIgnorePatterns commitSeen true rest

/-- The argument loop of `handle_stats` (`git_ai_handlers.rs` lines
549-620).  `rangeOk` stands for `CommitRange::new_infer_refname`
succeeding (repository code not under `src/`). -/
def handle_stats_parse (rangeOk : String → String → Bool) :
    List String → Bool → Option String → Option (String × String) → List String → StatsParse
  | [], json, commit, range, pats => .ok json commit range pats
  | a :: rest, json, commit, range, pats =>
    if a = "--json" then
      handle_stats_parse rangeOk rest true commit range pats
    else if a = "--ignore" then
      let ps := collectIgnorePatterns commit.isSome false rest
      if ps = [] then .exit1 "--ignore requires at least one pattern argument"
      else handle_stats_parse rangeOk (rest.drop ps.length) json commit range (pats ++ ps)
    else
      match commit with
      | none =>
        if strContains a ".." then
          match splitOnDotDot a.toList with
          | [p1, p2] =>
            if rangeOk ⟨p1⟩ ⟨p2⟩ then
              handle_stats_parse rangeOk rest json commit (some (⟨p1⟩, ⟨p2⟩)) pats
            else .exit1 "Failed to create commit range"
          | _ => .exit1 "Invalid commit range format. Expected: <commit>..<commit>"
        else
          handle_stats_parse rangeOk rest json (some a) range pats
      | some _ => .exit1 ("Unknown stats argument: " ++ a)
termination_by args _ _ _ _ => args.length
decreasing_by all_goals (simp; try omega)

/-- The claim's collection rule, stated independently: the first argument
must additionally not be 7-or-more bytes long when no commit has been
seen; after one pattern is collected only another flag or a range
argument stops the collection. -/
def specCollectIgnore (commitSeen : Bool) : List String → List String
  | [] => []
  | a :: rest =>
    if "--".toList.isPrefixOf a.toList || strContains a ".." ||
        (!commitSeen && decide (7 ≤ a.utf8ByteSize)) then []
    else
      a :: rest.takeWhile fun b =>
        !("--".toList.isPrefixOf b.toList) && !(strContains b "..")

/- ## The attribution tracker / virtual attribution engine (spec §4.3-4.4)

The tracker and engine sources (`authorship/attribution_tracker.rs`,
`authorship/virtual_attribution.rs`) are not under `src/`; only their
test `tests/prompt_across_commit.rs` is.  They are modelled here from the
specification and exercised on that test's exact scenario (S3). -/

/-- Modelled from the spec (§4.3 step 1): one operation of a character
edit script — `equal`/`insert`/`delete` runs with their lengths. -/
inductive EditOp
  | equal (n : Nat)
  | insert (n : Nat)
  | delete (n : Nat)
deriving DecidableEq, Repr

/-- Modelled from the spec (§4.3 step 1): the script transforms
`prev` into `next` — `equal n` consumes identical prefixes of both,
`insert n` consumes `n` characters of `next` only, `delete n` consumes
`n` characters of `prev` only, and the script exhausts both. -/
def scriptValid : List Char → List Char → List EditOp → Bool
  | p, n, [] => p.isEmpty && n.isEmpty
  | p, n, .equal k :: rest =>
    decide (k ≤ p.length) && decide (k ≤ n.length) && decide (p.take k = n.take k) &&
      scriptValid (p.drop k) (n.drop k) rest
  | p, n, .insert k :: rest =>
    decide (k ≤ n.length) && scriptValid p (n.drop k) rest
  | p, n, .delete k :: rest =>
    decide (k ≤ p.length) && scriptValid (p.drop k) n rest

/-- Modelled from the spec (§4.3 step 2, `equal` case): the slice of the
previous attributions covering `[s, e)`, shifted to start at `newStart`. -/
def copyRange (attrs : List Attribution) (s e newStart : Nat) : List Attribution :=
  (attrs.filter fun a => decide (a.start < e) && decide (s < a.stop)).map fun a =>
    { start := max a.start s - s + newStart,
      stop := min a.stop e - s + newStart,
      author_id := a.author_id,
      prompt_hash := a.prompt_hash }

/-- Modelled from the spec (§4.3 step 2): walk the edit script — `equal`
segments copy the covering slice of the previous attributions shifted to
the new offset, `insert` segments emit one attribution carrying the new
author and prompt hash, `delete` segments contribute nothing.
`p`/`q` track the current offsets in the previous/new content. -/
def walkScript (attrs : List Attribution) (author : String) (hash : Option String) :
    Nat → Nat → List EditOp → List Attribution
  | _, _, [] => []
  | p, q, .equal n :: rest =>
    copyRange attrs p (p + n) q ++ walkScript attrs author hash (p + n) (q + n) rest
  | p, q, .insert n :: rest =>
    ⟨q, q + n, author, hash⟩ :: walkScript attrs author hash p (q + n) rest
  | p, q, .delete n :: rest => walkScript attrs author hash (p + n) q rest

/-- Modelled from the spec (§4.3 step 3): merge adjacent attributions
with equal `(author_id, prompt_hash)` (empty intervals dropped upstream;
a zero-length edit produces no change). -/
def mergeAttrs (l : List Attribution) : List Attribution :=
  (l.foldl
    (fun acc a =>
      match acc with
      | [] => [a]
      | b :: t =>
        if b.author_id = a.author_id ∧ b.prompt_hash = a.prompt_hash ∧ b.stop = a.start then
          { b with stop := a.stop } :: t
        else a :: b :: t)
    []).reverse

/-- Modelled from the spec (§4.3): `diff_attribute` — project the
previous attribution vector through the edit script, crediting inserted
characters to `(new_author_id, new_prompt_hash)`, then merge. -/
def diff_attribute (prev_attr : List Attribution) (script : List EditOp)
    (new_author_id : String) (new_prompt_hash : Option String) : List Attribution :=
  mergeAttrs
    ((walkScript prev_attr new_author_id new_prompt_hash 0 0 script).filter
      fun a => decide (a.start < a.stop))

/-- Modelled from the spec (§4.3 line-boundary scanning, at prompt-hash
granularity): the `(author_id, prompt_hash)` pairs whose interval
intersects the half-open character range `[s, e)`. -/
def pairsOverlapping (attrs : List Attribution) (s e : Nat) :
    Finset (String × Option String) :=
  (attrs.filter fun a => decide (a.start < e) && decide (s < a.stop)).foldl
    (fun st a => insert (a.author_id, a.prompt_hash) st) ∅

/-- Modelled from the spec (§4.3-4.4): per-line `(author_id, prompt_hash)`
sets of a content under an attribution vector, lines delimited by the
accurate boundary scan. -/
def linePairSets (content : List Char) (attrs : List Attribution) :
    List (Finset (String × Option String)) :=
  (lineBoundaries content).map fun b => pairsOverlapping attrs b.1 b.2

/- ### The S3 scenario of `tests/prompt_across_commit.rs` -/

/-- `foo.py` as committed in S1: seven lines, all written by the first AI
session under prompt hash `H1` (test lines 14-22). -/
def s3_base : String :=
  "def print_name(name: str) -> None:\n    \"\"\"Print the given name.\"\"\"\n    if name == \x27foobar\x27:\n        print(\x27name not allowed!\x27)\n    print(f\"Hello, {name}!\")\n\nprint_name(\"Michael\")"

/-- `foo.py` after the second AI session (prompt hash `H2`) replaces line
index 4 with `    print(f"Hello, {name.upper()}!")` (test line 30). -/
def s3_afterAiEdit : String :=
  "def print_name(name: str) -> None:\n    \"\"\"Print the given name.\"\"\"\n    if name == \x27foobar\x27:\n        print(\x27name not allowed!\x27)\n    print(f\"Hello, {name.upper()}!\")\n\nprint_name(\"Michael\")"

/-- `foo.py` after the human checkpoint inserts `    name = name.upper()`
before that line (test line 32). -/
def s3_final : String :=
  "def print_name(name: str) -> None:\n    \"\"\"Print the given name.\"\"\"\n    if name == \x27foobar\x27:\n        print(\x27name not allowed!\x27)\n    name = name.upper()\n    print(f\"Hello, {name.upper()}!\")\n\nprint_name(\"Michael\")"

/-- Minimal edit script of the second AI session's edit: `.upper()`
(8 characters) inserted at offset 151. -/
def s3_scriptA : List EditOp := [.equal 151, .insert 8, .equal 27]

/-- Minimal edit script of the human checkpoint: the new line and its
terminator (24 characters) inserted at the line-4 boundary, offset 127. -/
def s3_scriptB : List EditOp := [.equal 127, .insert 24, .equal 59]

/-- The attribution vector seeded from the S1 attestation: the whole base
content authored by the first AI session under `H1` (spec §4.4 step 1). -/
def s3_seed : List Attribution := [⟨0, 178, "ai:s1", some "H1"⟩]

/-- The S3 replay (spec §4.4 step 2): fold the two checkpoints' diffs
over the seeded vector. -/
def s3_final_attrs : List Attribution :=
  diff_attribute (diff_attribute s3_seed s3_scriptA "ai:s2" (some "H2"))
    s3_scriptB "human" none

/-- Observable outcome of one wrapped `git commit` invocation
(`handle_git` of `git_handlers.rs`, restricted to the commit flow). -/
structure CommitFlow where
  /-- The underlying git process was spawned. -/
  gitRan : Bool
  /-- How the wrapper process terminates. -/
  termination : Termination
  /-- What the post-commit hook did. -/
  postAction : PostAction
  /-- A panic in the pre-command hook was caught and logged. -/
  prePanicLogged : Bool
  /-- A panic in the post-command hook was caught and logged. -/
  postPanicLogged : Bool
deriving DecidableEq, Repr

/-- The commit flow of `handle_git` (`git_handlers.rs` lines 216-273 with
`run_pre_command_hooks` lines 286-367 and `run_post_command_hooks` lines
369-447): the pre-hook runs under `catch_unwind` (a panic is logged and
leaves `pre_commit_hook_result` unset); a `std::process::exit` inside the
hook is not a panic and terminates the wrapper before git is spawned;
otherwise git runs, the post-hook runs under `catch_unwind`, and the
wrapper exits via `exit_with_status`.  `prePanics`/`postPanics` say
whether the respective hook body panics; the working-tree facts
(`preCommit`, `baseCommit`, `headSha`) are passed in as values. -/
def commitWrapper (command_args : List String) (preCommit : PreCommitResult)
    (prePanics postPanics : Bool) (gitStatus : GitExitStatus)
    (baseCommit headSha : Option String) : CommitFlow :=
  let preResult : Option Bool × Option Nat :=
    if prePanics then (none, none)
    else
      let t := commit_pre_command_hook command_args preCommit
      (some t.proceed, t.exited)
  match preResult.2 with
  | some code =>
    { gitRan := false, termination := .exitCode code, postAction := .noop,
      prePanicLogged := false, postPanicLogged := false }
  | none =>
    let postAction :=
      if postPanics then PostAction.noop
      else commit_post_command_hook command_args gitStatus preResult.1 baseCommit headSha
    { gitRan := true, termination := exit_with_status gitStatus,
      postAction := postAction,
      prePanicLogged := prePanics, postPanicLogged := postPanics }

end GitAi

namespace GitAi

/- ## Theorems -/

/-- Helper: `classifyLine` is `none` exactly on the empty author set. -/
theorem classifyLine_eq_none_iff (authors : Finset String) :
    classifyLine authors = none ↔ authors = ∅ := by
  unfold classifyLine
  by_cases h : authors = ∅ <;> simp [h]
  by_cases h1 : authors.card = 1 <;> simp [h1] <;>
    by_cases h2 : "human" ∈ authors <;> simp [h2]

/-- C3: a line with a non-empty author set is `mixed` exactly when the set
contains `"human"` and at least one other (AI) author id; it is `pure_ai`
exactly when no author is `"human"`; it is `pure_human` exactly when the
set is `{"human"}`. -/
theorem claim_C3_stats_classification (authors : Finset String) (h : authors ≠ ∅) :
    (classifyLine authors = some .mixed ↔
      "human" ∈ authors ∧ ∃ a ∈ authors, a ≠ "human") ∧
    (classifyLine authors = some .pureAI ↔ ∀ a ∈ authors, a ≠ "human") ∧
    (classifyLine authors = some .pureHuman ↔ authors = {"human"}) := by
  unfold classifyLine
  by_cases h1 : authors.card = 1
  · obtain ⟨a, rfl⟩ := Finset.card_eq_one.mp h1
    by_cases h2 : "human" ∈ ({a} : Finset String)
    · simp only [Finset.mem_singleton] at h2
      subst h2
      simp
    · simp only [Finset.mem_singleton] at h2
      simp [h1, h2, Ne.symm h2]
  · have h2 : 1 < authors.card := by
      rcases Nat.lt_or_ge authors.card 1 with hlt | hge
      · exact absurd (Finset.card_eq_zero.mp (Nat.lt_one_iff.mp hlt)) h
      · exact Nat.lt_of_le_of_ne hge (fun e => h1 e.symm)
    by_cases h3 : "human" ∈ authors
    · obtain ⟨b, hb, hb2⟩ := Finset.exists_ne_of_one_lt_card h2 "human"
      have hne : ¬ authors = {"human"} := by
        intro e
        rw [e] at hb
        exact hb2 (Finset.mem_singleton.mp hb)
      simp [h, h1, h3, hne]
      exact ⟨b, hb, hb2⟩
    · have hne : ¬ authors = {"human"} := by
        intro e
        rw [e] at h3
        exact h3 (Finset.mem_singleton_self _)
      constructor
      · simp [h, h1, h3]
      constructor
      · simp only [h, if_neg h, h1, if_neg h1, h3, if_neg h3]
        constructor
        · intro _ a ha hahuman
          exact h3 (hahuman ▸ ha)
        · intro _; rfl
      · simp [h, h1, h3, hne]

/-- Witness for C3 at a concrete two-author line. -/
theorem claim_C3_stats_classification_witness :
    classifyLine (insert "human" {"cursor:abc"}) = some .mixed :=
  ((claim_C3_stats_classification (insert "human" {"cursor:abc"}) (by decide)).1).mpr
    ⟨by decide, "cursor:abc", by decide, by decide⟩

/-- Helper: the categorization fold counts, per bucket, the lines whose
classification lands there, and in `total_lines` the classified lines. -/
theorem foldl_statsStep_counts (l : List (Finset String)) (st : FileStats) :
    l.foldl statsStep st =
      ⟨st.pure_human_lines + l.countP (fun a => classifyLine a == some .pureHuman),
       st.mixed_lines + l.countP (fun a => classifyLine a == some .mixed),
       st.pure_ai_lines + l.countP (fun a => classifyLine a == some .pureAI),
       st.total_lines + l.countP (fun a => (classifyLine a).isSome)⟩ := by
  induction l generalizing st with
  | nil => simp
  | cons a t ih =>
    rw [List.foldl_cons, ih]
    unfold statsStep
    rcases hc : classifyLine a with _ | cat
    · simp [List.countP_cons, hc]
    · cases cat <;>
        simp [List.countP_cons, hc, FileStats.mk.injEq] <;> omega

/-- Helper: each classified line falls in exactly one bucket, so the
bucket counts add up to the classified-line count. -/
theorem countP_classified_split (l : List (Finset String)) :
    l.countP (fun a => (classifyLine a).isSome) =
      l.countP (fun a => classifyLine a == some .pureHuman) +
      l.countP (fun a => classifyLine a == some .mixed) +
      l.countP (fun a => classifyLine a == some .pureAI) := by
  induction l with
  | nil => simp
  | cons a t ih =>
    rcases hc : classifyLine a with _ | cat
    · simp [List.countP_cons, hc, ih]
    · cases cat <;> simp [List.countP_cons, hc, ih] <;> omega

/-- Helper: a line is classified iff its author set is non-empty. -/
theorem classifyLine_isSome (a : Finset String) :
    (classifyLine a).isSome = decide (a ≠ ∅) := by
  by_cases h : a = ∅
  · simp [h, classifyLine_eq_none_iff]
  · rcases hc : classifyLine a with _ | cat
    · exact absurd ((classifyLine_eq_none_iff a).mp hc) h
    · simp [hc, h]

/-- Helper: `lineBoundariesGo` yields one boundary pair per line. -/
theorem lineBoundariesGo_length (content : List Char) (ls : List (List Char)) (pos : Nat) :
    (lineBoundariesGo content pos ls).length = ls.length := by
  induction ls generalizing pos with
  | nil => rfl
  | cons l t ih => simp [lineBoundariesGo, ih]

/-- C9: in `calculate_file_stats`, a line overlapped by no attribution is
excluded from every bucket and from `total_lines`: the total always equals
`pure_human + mixed + pure_ai`, equals the number of lines with a
non-empty author set, is bounded by the file's line count — and can be
strictly smaller, as the concrete two-line file with no attributions
shows. -/
theorem claim_C9_unattributed_lines_excluded (content : List Char) (attrs : List Attribution) :
    ((calculate_file_stats content attrs).total_lines =
      (calculate_file_stats content attrs).pure_human_lines +
        (calculate_file_stats content attrs).mixed_lines +
        (calculate_file_stats content attrs).pure_ai_lines) ∧
    ((calculate_file_stats content attrs).total_lines =
      (lineAuthors content attrs).countP (fun a => decide (a ≠ ∅))) ∧
    ((calculate_file_stats content attrs).total_lines ≤ (rustLines content).length) ∧
    ((calculate_file_stats ['a', '\n', 'b'] []).total_lines = 0 ∧
      (rustLines ['a', '\n', 'b']).length = 2) := by
  have hfold := foldl_statsStep_counts (lineAuthors content attrs) ⟨0, 0, 0, 0⟩
  have htotal : (calculate_file_stats content attrs).total_lines =
      (lineAuthors content attrs).countP (fun a => (classifyLine a).isSome) := by
    unfold calculate_file_stats
    rw [hfold]
    simp
  refine ⟨?_, ?_, ?_, by decide, by decide⟩
  · unfold calculate_file_stats
    rw [hfold]
    simpa using countP_classified_split (lineAuthors content attrs)
  · rw [htotal]
    exact List.countP_congr fun a _ => by simp [classifyLine_isSome a]
  · calc (calculate_file_stats content attrs).total_lines
        ≤ (lineAuthors content attrs).length := htotal ▸ List.countP_le_length _
      _ = (rustLines content).length := by
          unfold lineAuthors lineBoundaries
          rw [List.length_map, lineBoundariesGo_length]

/-- C5 (divergence): on the four documented glob shapes, `glob_match` and
`should_ignore_file` disagree with the documented behavior: a `*middle*`
pattern never matches (here `"amiddleb"`, which contains `middle`, is not
ignored), and a `prefix*suffix` pattern ignores the prefix (here `"zzb"`
is matched by `"a*b"` though it does not start with `a`), while the
`*suffix` and `prefix*` shapes behave as documented. -/
theorem claim_C5_glob_divergence :
    should_ignore_file "amiddleb" ["*middle*"] = false ∧
    glob_match "amiddleb" "*middle*" = false ∧
    should_ignore_file "zzb" ["a*b"] = true ∧
    glob_match "zzb" "a*b" = true ∧
    glob_match "note.txt" "*.txt" = true ∧
    glob_match "src/main.rs" "src*" = true := by
  refine ⟨?_, ?_, ?_, ?_, ?_, ?_⟩ <;> decide

/-- Helper: the pre-commit hook never calls `process::exit` when the
checkpoint succeeds, when the invocation is a dry run, or when the
checkpoint failure is the bare-repository error. -/
theorem pre_hook_no_exit (args : List String) (pre : PreCommitResult)
    (h : pre = .ok ∨ is_dry_run args = true ∨
      ∃ msg, pre = .err msg ∧ strContains msg bareRepoMsg = true) :
    (commit_pre_command_hook args pre).exited = none := by
  unfold commit_pre_command_hook
  by_cases hd : is_dry_run args = true
  · simp [hd]
  · rcases h with rfl | hd2 | ⟨msg, rfl, hbare⟩
    · simp [hd]
    · exact absurd hd2 hd
    · simp [hd, hbare]

/-- C2 (counterexample): a pre-commit checkpoint failure that is not the
bare-repository error makes the wrapper exit with code 1 before git is
even spawned, so the VCS exit code (here 0) is not preserved. -/
theorem claim_C2_counterexample :
    (commitWrapper ["-m", "x"] (.err "disk full") false false
        (.exited 0) none (some "abc")).gitRan = false ∧
    (commitWrapper ["-m", "x"] (.err "disk full") false false
        (.exited 0) none (some "abc")).termination = .exitCode 1 ∧
    exit_with_status (.exited 0) = .exitCode 0 := by
  refine ⟨?_, ?_, ?_⟩ <;> decide

/-- C2 (amended): hook failures do not disturb the wrapper *except* for a
non-bare pre-commit checkpoint error, which exits the wrapper with code 1
before git runs.  Whenever the pre-commit checkpoint succeeds, the
invocation is a dry run, the failure is the bare-repository error, or the
hook panics, git runs, the wrapper's termination mirrors the git process,
and hook panics are caught and logged; a bare-repository failure makes
the pre-hook return `false` (skipping) without an error exit. -/
theorem claim_C2_hook_error_isolation_amended (args : List String)
    (pre : PreCommitResult) (prePanics postPanics : Bool)
    (gitStatus : GitExitStatus) (base head : Option String)
    (h : prePanics = true ∨ pre = .ok ∨ is_dry_run args = true ∨
      ∃ msg, pre = .err msg ∧ strContains msg bareRepoMsg = true) :
    (commitWrapper args pre prePanics postPanics gitStatus base head).gitRan = true ∧
    (commitWrapper args pre prePanics postPanics gitStatus base head).termination =
      exit_with_status gitStatus ∧
    (commitWrapper args pre prePanics postPanics gitStatus base head).prePanicLogged =
      prePanics ∧
    (commitWrapper args pre prePanics postPanics gitStatus base head).postPanicLogged =
      postPanics ∧
    (∀ msg, pre = .err msg → strContains msg bareRepoMsg = true →
      is_dry_run args = false →
      commit_pre_command_hook args pre = ⟨true, true, none, false⟩) := by
  have hbare : ∀ msg, pre = .err msg → strContains msg bareRepoMsg = true →
      is_dry_run args = false →
      commit_pre_command_hook args pre = ⟨true, true, none, false⟩ := by
    intro msg hmsg hc hd
    subst hmsg
    unfold commit_pre_command_hook
    simp [hd, hc]
  cases prePanics with
  | true =>
    refine ⟨rfl, rfl, rfl, rfl, hbare⟩
  | false =>
    have hne : (commit_pre_command_hook args pre).exited = none := by
      rcases h with hp | h2
      · exact absurd hp (by simp)
      · exact pre_hook_no_exit args pre h2
    refine ⟨?_, ?_, ?_, ?_, hbare⟩ <;> (unfold commitWrapper; simp [hne])

/-- Witness for the amended C2 at a concrete bare-repository failure. -/
theorem claim_C2_hook_error_isolation_amended_witness :
    (commitWrapper ["-m", "x"] (.err "Cannot run checkpoint on bare repositories")
        false false (.exited 2) none none).termination = exit_with_status (.exited 2) :=
  (claim_C2_hook_error_isolation_amended ["-m", "x"]
      (.err "Cannot run checkpoint on bare repositories") false false
      (.exited 2) none none
      (Or.inr (Or.inr (Or.inr ⟨_, rfl, by decide⟩)))).2.1

/-- C4: the wrapper's observable termination mirrors the git child
process — `exit_with_status` turns a normal exit code `c` into a process
exit with `c` and a signal death `s` into re-raising `s` after restoring
the default handler; and whenever the commit flow actually spawned git,
the wrapper terminates via `exit_with_status` of the child's status. -/
theorem claim_C4_exit_fidelity :
    (∀ c : Nat, exit_with_status (.exited c) = .exitCode c) ∧
    (∀ s : Nat, exit_with_status (.signaled s) = .signalDefaultRaised s) ∧
    (∀ (args : List String) (pre : PreCommitResult) (prePanics postPanics : Bool)
      (gitStatus : GitExitStatus) (base head : Option String),
      (commitWrapper args pre prePanics postPanics gitStatus base head).gitRan = true →
      (commitWrapper args pre prePanics postPanics gitStatus base head).termination =
        exit_with_status gitStatus) := by
  refine ⟨fun c => rfl, fun s => rfl, ?_⟩
  intro args pre prePanics postPanics gitStatus base head
  unfold commitWrapper
  cases prePanics with
  | true => intro _; rfl
  | false =>
    rcases hex : (commit_pre_command_hook args pre).exited with _ | code <;>
      simp [hex]

/-- Witness for C4 at concrete statuses, including the commit flow. -/
theorem claim_C4_exit_fidelity_witness :
    exit_with_status (.exited 3) = .exitCode 3 ∧
    exit_with_status (.signaled 15) = .signalDefaultRaised 15 ∧
    (commitWrapper ["-m", "x"] .ok false false (.exited 0) none
        (some "abc")).termination = exit_with_status (.exited 0) :=
  ⟨claim_C4_exit_fidelity.1 3, claim_C4_exit_fidelity.2.1 15,
    claim_C4_exit_fidelity.2.2 ["-m", "x"] .ok false false (.exited 0) none
      (some "abc") (by decide)⟩

/-- C7 (counterexample): when the pre-commit hook panics, it never reports
success (`pre_commit_hook_result` stays unset), yet after a successful
`git commit` the post-hook still emits the rewrite-log event and converts
the working log — contradicting "performs its work only when … the
pre-commit hook reported success". -/
theorem claim_C7_counterexample :
    (commitWrapper ["-m", "x"] .ok true false (.exited 0) none
        (some "abc")).prePanicLogged = true ∧
    (commitWrapper ["-m", "x"] .ok true false (.exited 0) none
        (some "abc")).postAction = .commitEvent none "abc" false ∧
    commit_post_command_hook ["-m", "x"] (.exited 0) none none (some "abc") =
      .commitEvent none "abc" false := by
  refine ⟨?_, ?_, ?_⟩ <;> decide

/-- C7 (amended): the post-commit hook performs its work only when git
exited successfully and the pre-hook did not *report failure* (an unset
result — a panicked pre-hook — does not block it); a failed git exit or a
recorded pre-hook failure always yields a no-op. -/
theorem claim_C7_post_hook_gating_amended (args : List String)
    (st : GitExitStatus) (preRes : Option Bool) (base head : Option String) :
    (commit_post_command_hook args st preRes base head ≠ .noop →
      st.success = true ∧ preRes ≠ some false ∧ is_dry_run args = false ∧
        head.isSome = true) ∧
    (st.success = false → commit_post_command_hook args st preRes base head = .noop) ∧
    (preRes = some false → commit_post_command_hook args st preRes base head = .noop) := by
  unfold commit_post_command_hook
  by_cases hd : is_dry_run args = true
  · simp [hd]
  · by_cases hs : st.success = true
    · by_cases hp : preRes = some false
      · simp [hd, hs, hp]
      · rcases head with _ | sha
        · simp [hd, hs, hp]
        · simp [hd, hs, hp, eq_false_of_ne_true hd]
    · simp [hd, eq_false_of_ne_true hs]

/-- Witness for the amended C7: a recorded pre-hook failure gates the
post-hook off even after a successful commit. -/
theorem claim_C7_post_hook_gating_amended_witness :
    commit_post_command_hook ["-m", "x"] (.exited 0) (some false) none
      (some "abc") = .noop :=
  (claim_C7_post_hook_gating_amended ["-m", "x"] (.exited 0) (some false)
      none (some "abc")).2.2 rfl

/-- C8: on a dry run both commit hooks are no-ops — the pre-hook stores no
HEAD context, creates no checkpoint, does not exit, and returns `false`;
the post-hook emits nothing. -/
theorem claim_C8_dry_run_noop (args : List String) (pre : PreCommitResult)
    (st : GitExitStatus) (preRes : Option Bool) (base head : Option String)
    (h : is_dry_run args = true) :
    commit_pre_command_hook args pre = ⟨false, false, none, false⟩ ∧
    commit_post_command_hook args st preRes base head = .noop := by
  unfold commit_pre_command_hook commit_post_command_hook
  simp [h]

/-- Witness for C8 at a concrete `commit --dry-run` invocation. -/
theorem claim_C8_dry_run_noop_witness :
    commit_pre_command_hook ["--dry-run", "-m", "x"] .ok =
      ⟨false, false, none, false⟩ ∧
    commit_post_command_hook ["--dry-run", "-m", "x"] (.exited 0) (some true)
      none (some "abc") = .noop :=
  claim_C8_dry_run_noop ["--dry-run", "-m", "x"] .ok (.exited 0) (some true)
    none (some "abc") (by decide)

/-- Helper: `orElseOpt` is associative. -/
theorem orElseOpt_assoc (a b c : Option String) :
    orElseOpt (orElseOpt a b) c = orElseOpt a (orElseOpt b c) := by
  cases a <;> rfl

/-- Helper: the source's sequential name/email fills compute exactly the
two per-field precedence chains of the claim. -/
theorem resolved_name_email_spec (env : AuthorEnv) :
    resolved_name_email env = (specAuthorName env, specAuthorEmail env) := by
  unfold resolved_name_email specAuthorName specAuthorEmail
  rw [← orElseOpt_assoc, ← orElseOpt_assoc]
  rcases hn : orElseOpt (nonEmptyTrim env.git_author_name) (nonEmptyTrim env.user_name)
    with _ | n <;>
  rcases he : orElseOpt (nonEmptyTrim env.git_author_email) (nonEmptyTrim env.user_email)
    with _ | e <;>
  rcases hm : env.email with _ | em <;>
    simp [orElseOpt, nonEmptyTrim] <;>
    by_cases ht : strTrim em = "" <;>
    simp [ht]

/-- C6: author resolution follows the claimed precedence — a resolvable
non-empty `--author` argument (in either form) wins over everything;
otherwise `GIT_AUTHOR_NAME`/`GIT_AUTHOR_EMAIL` beat `user.name`/`user.email`,
which beat the `EMAIL` variable, per field; with nothing set the result is
the literal `"unknown"` with a warning. -/
theorem claim_C6_author_precedence (resolveAuthor : String → Option String)
    (env : AuthorEnv) (args : List String) :
    get_commit_default_author resolveAuthor env args =
      author_precedence_spec resolveAuthor env args := by
  unfold get_commit_default_author author_precedence_spec
  rcases hx : extract_author_from_args args with _ | spec
  · simp [hx, nonEmptyTrim, resolved_name_email_spec]
  · rcases hr : resolveAuthor spec with _ | r
    · simp [hx, hr, nonEmptyTrim, resolved_name_email_spec]
    · by_cases ht : strTrim r = ""
      · simp [hx, hr, ht, nonEmptyTrim, resolved_name_email_spec]
      · simp [hx, hr, ht, nonEmptyTrim]

/-- Helper: once a pattern has been collected, the stopping test reduces
to "another flag or a range-looking argument". -/
theorem ignoreStop_found (commitSeen : Bool) (a : String) :
    ignoreStop commitSeen true a =
      !(!("--".toList.isPrefixOf a.toList) && !(strContains a "..")) := by
  unfold ignoreStop
  cases h1 : "--".toList.isPrefixOf a.toList <;>
    cases h2 : strContains a ".." <;> simp

/-- Helper: on the first candidate the stopping test includes the
7-byte-length rule whenever no commit has been seen. -/
theorem ignoreStop_notfound (commitSeen : Bool) (a : String) :
    ignoreStop commitSeen false a =
      ("--".toList.isPrefixOf a.toList || strContains a ".." ||
        (!commitSeen && decide (7 ≤ a.utf8ByteSize))) := by
  unfold ignoreStop
  cases commitSeen <;> simp

/-- Helper: once one pattern is collected, only another flag or a
range-looking argument stops the `--ignore` loop. -/
theorem collectIgnorePatterns_found (commitSeen : Bool) (l : List String) :
    collectIgnorePatterns commitSeen true l =
      l.takeWhile fun b => !("--".toList.isPrefixOf b.toList) && !(strContains b "..") := by
  induction l with
  | nil => rfl
  | cons a rest ih =>
    rw [List.takeWhile_cons]
    unfold collectIgnorePatterns
    rw [ignoreStop_found, ih]
    cases hp : (!("--".toList.isPrefixOf a.toList) && !(strContains a "..")) <;> simp

/-- C10 (counterexample): `git-ai stats --ignore abcdefg` — the first
candidate pattern has 7 bytes, so the loop stops with nothing collected
and the command prints a diagnostic and exits 1; the argument is *not*
treated as a commit SHA. -/
theorem claim_C10_counterexample :
    handle_stats_parse (fun _ _ => true) ["--ignore", "abcdefg"] false none none [] =
      .exit1 "--ignore requires at least one pattern argument" ∧
    handle_stats_parse (fun _ _ => true) ["--ignore", "abcdefg"] false none none [] ≠
      .ok false (some "abcdefg") none [] := by
  have hps : collectIgnorePatterns false false ["abcdefg"] = [] := by decide
  have h : handle_stats_parse (fun _ _ => true) ["--ignore", "abcdefg"] false none none [] =
      .exit1 "--ignore requires at least one pattern argument" := by
    simp [handle_stats_parse, hps]
  exact ⟨h, by rw [h]; decide⟩

/-- C10 (amended): the `--ignore` collection stops exactly at the first
argument that is another flag, contains `".."`, or — when no commit has
been seen and nothing was collected yet — has at least 7 bytes; since the
length rule can only fire on the first candidate, such a stop leaves the
pattern list empty and `handle_stats` errors out
("--ignore requires at least one pattern argument") instead of treating
the argument as a commit SHA. -/
theorem claim_C10_ignore_collection_amended :
    (∀ (commitSeen : Bool) (args : List String),
      collectIgnorePatterns commitSeen false args = specCollectIgnore commitSeen args) ∧
    (∀ (rangeOk : String → String → Bool) (p : String) (rest : List String),
      7 ≤ p.utf8ByteSize →
      handle_stats_parse rangeOk ("--ignore" :: p :: rest) false none none [] =
        .exit1 "--ignore requires at least one pattern argument") := by
  constructor
  · intro commitSeen args
    cases args with
    | nil => rfl
    | cons a rest =>
      unfold collectIgnorePatterns specCollectIgnore
      rw [ignoreStop_notfound, collectIgnorePatterns_found]
  · intro rangeOk p rest hlen
    have hstop : ignoreStop false false p = true := by
      unfold ignoreStop
      simp [hlen]
    simp [handle_stats_parse, collectIgnorePatterns, hstop]

/-- Witness for the amended C10 at a concrete long first pattern. -/
theorem claim_C10_ignore_collection_amended_witness :
    handle_stats_parse (fun _ _ => true) ["--ignore", "longpattern", "x"] false none none [] =
      .exit1 "--ignore requires at least one pattern argument" :=
  claim_C10_ignore_collection_amended.2 (fun _ _ => true) "longpattern" ["x"] (by decide)

set_option maxRecDepth 40000 in
/-- C1: in the S3 scenario the virtual-attribution engine credits the
edit to the session whose checkpoint introduced it — both checkpoint
scripts are genuine (minimal) diffs of the test's file contents, and
after the replay the characters inserted by the second AI session carry
exactly `("ai:s2", H2)` (not `H1`); in the final content the resulting
line 6 (index 5) carries `H2`, and the human-inserted line 5 (index 4)
is credited solely to `"human"`. -/
theorem claim_C1_edit_credited_to_new_session :
    scriptValid s3_base.toList s3_afterAiEdit.toList s3_scriptA = true ∧
    scriptValid s3_afterAiEdit.toList s3_final.toList s3_scriptB = true ∧
    s3_final_attrs =
      [⟨0, 127, "ai:s1", some "H1"⟩, ⟨127, 151, "human", none⟩,
       ⟨151, 175, "ai:s1", some "H1"⟩, ⟨175, 183, "ai:s2", some "H2"⟩,
       ⟨183, 210, "ai:s1", some "H1"⟩] ∧
    pairsOverlapping s3_final_attrs 175 183 = {("ai:s2", some "H2")} ∧
    (linePairSets s3_final.toList s3_final_attrs)[4]? = some {("human", none)} ∧
    ("ai:s2", some "H2") ∈ (linePairSets s3_final.toList s3_final_attrs).getD 5 ∅ ∧
    ((linePairSets s3_final.toList s3_final_attrs).getD 5 ∅).card = 2 ∧
    ("ai:s2", some "H1") ∉ (linePairSets s3_final.toList s3_final_attrs).getD 5 ∅ := by
  refine ⟨?_, ?_, ?_, ?_, ?_, ?_, ?_, ?_⟩ <;> decide

end GitAi
